import Mathlib

/-
Shallow embedding of the go-httputil package.

Source files embedded here (the current sections of each file):
  errors.go        : the httperror struct, its Status / Error / Cause methods,
                     and the NewError constructor.
  httputil.go      : the response writer helpers ErrorWithStatus, Error,
                     JsonWithStatus, Json, MessageWithStatus, Message, OK,
                     InternalError, InternalErrorWithStatus.
  the assert file  : toErr, Assert, AssertWithStatus, AssertErrorIsNil,
                     AssertErrorIsNilWithStatus, the HttpError interface and
                     the middleware MiddlewareHTTPAssersionRecoverer.

Go interface values are modelled by the inductive GoValue; Go error values by
GoError. An http.ResponseWriter together with the process log sink is modelled
as a trace of events: each helper returns the list of events it appends, so
two helpers are extensionally equal exactly when they act identically on every
sink. A wrapped handler invocation is a HandlerResult: it either returns
normally or panics with a carried value, in both cases having already appended
its own events. The middleware maps a HandlerResult to an MWOutcome which
records the final event trace, the re-raised value if any, and how many times
the per request cancel function of context.WithCancel was invoked.
-/

namespace GoHttputil

/-- A leaf JSON value appearing in the object literals of the package: the Go
sources only ever place booleans and strings inside the envelope maps. -/
inductive JsonLeaf where
  | jbool (b : Bool)
  | jstr (s : String)
deriving DecidableEq, Repr

/-- A JSON document encoded as a response body. The Go code encodes exactly
three shapes: an opaque caller supplied payload (Json and JsonWithStatus), a
one field object (the bare ok envelope) and a two field object (the ok plus
message envelopes). Field order follows the Go map literals; JSON object
equality does not depend on it. -/
inductive JsonVal where
  | jraw (tag : String)
  | jobj1 (key1 : String) (val1 : JsonLeaf)
  | jobj2 (key1 : String) (val1 : JsonLeaf) (key2 : String) (val2 : JsonLeaf)
deriving DecidableEq, Repr

/-- The string leaves of a JSON document, keys included: the texts a client
could read off the body. -/
def JsonLeaf.strings : JsonLeaf → List String
  | JsonLeaf.jbool _ => []
  | JsonLeaf.jstr s => [s]

/-- All strings occurring in a JSON document, keys and leaves. -/
def JsonVal.strings : JsonVal → List String
  | JsonVal.jraw _ => []
  | JsonVal.jobj1 k v => k :: v.strings
  | JsonVal.jobj2 k1 v1 k2 v2 => k1 :: (v1.strings ++ k2 :: v2.strings)

/-- A Go error value as it can flow through this package.
basic models an error built by errors.New carrying only a message.
httpErr models the httperror struct of errors.go holding a status and a non
nil underlying error, which is the only form the package itself ever panics
with (the Assertion API always fills the err field with a toErr result).
foreign models a third party type that implements the HttpError interface
(Status, Error, Cause) but was not created by this package. -/
inductive GoError where
  | basic (msg : String)
  | httpErr (status : Int) (errField : GoError)
  | foreign (status : Int) (msg : String)
deriving DecidableEq, Repr

/-- The Error method: errors.go defines httperror.Error as he.err.Error(), a
basic error returns its message and a foreign implementation its own text. -/
def GoError.errorMsg : GoError → String
  | GoError.basic m => m
  | GoError.httpErr _ e => e.errorMsg
  | GoError.foreign _ m => m

/-- The Cause method where one exists: errors.go defines httperror.Cause as
returning he.err; a plain error exposes no Cause method and a foreign
implementation is modelled as returning nil. -/
def GoError.httpCause? : GoError → Option GoError
  | GoError.basic _ => none
  | GoError.httpErr _ e => some e
  | GoError.foreign _ _ => none

/-- The raw httperror struct of errors.go. Its err field has Go type error and
may be nil: NewError stores its argument without any normalization. The well
formed values with err = some e are the ones written GoError.httpErr s e when
they travel as interface values. -/
structure Httperror where
  status : Int
  err : Option GoError
deriving DecidableEq, Repr

/-- The Status method of httperror: returns the stored status field. -/
def Httperror.statusOf (he : Httperror) : Int := he.status

/-- The Cause method of httperror in errors.go: returns the stored err field,
hence nil exactly when a nil error was stored at construction. -/
def Httperror.causeOf (he : Httperror) : Option GoError := he.err

/-- NewError from errors.go: builds the struct from the given status and err
verbatim. The struct has no setters and its fields are unexported, so status
and cause are fixed at construction. -/
def NewError (status : Int) (err : Option GoError) : Httperror :=
  { status := status, err := err }

/-- A Go interface{} value as accepted by toErr, ErrorWithStatus and recover:
nil, a string, an error, or a value of any other dynamic type (carrying an
opaque tag so that distinct inputs stay distinguishable). -/
inductive GoValue where
  | vnil
  | vstr (s : String)
  | verr (e : GoError)
  | vother (tag : String)
deriving DecidableEq, Repr

/-- The type assertion r.(HttpError) of the middleware: succeeds exactly when
the dynamic type of the carried value implements Status, Error and Cause,
yielding the status together with the value itself viewed as an error. Both
the package httperror and any foreign implementation qualify; a plain error,
a string, nil or any other value does not. -/
def GoValue.asHttpError? : GoValue → Option (Int × GoError)
  | GoValue.verr (GoError.httpErr s e) => some (s, GoError.httpErr s e)
  | GoValue.verr (GoError.foreign s m) => some (s, GoError.foreign s m)
  | _ => none

/-- A structured log line emitted to the process log sink. -/
inductive LogEntry where
  | slogFailed (status : Int) (err : GoValue)
  | slogInternal (err : GoError)
  | printfAssertion (status : Int) (err : GoValue)
  | slogUpdate (v : GoValue)
deriving DecidableEq, Repr

/-- One observable effect on the response writer or the log sink, in the
order the Go statements execute. headerSet models Header().Set and
headerAdded models Header().Add. -/
inductive Event where
  | logged (entry : LogEntry)
  | headerSet (key val : String)
  | headerAdded (key val : String)
  | statusWritten (status : Int)
  | bodyWritten (body : JsonVal)
deriving DecidableEq, Repr

/-- The statuses written by WriteHeader calls inside a trace. -/
def statusWrites (evs : List Event) : List Int :=
  evs.filterMap fun e =>
    match e with
    | Event.statusWritten s => some s
    | _ => none

/-- The bodies encoded inside a trace. -/
def bodyWrites (evs : List Event) : List JsonVal :=
  evs.filterMap fun e =>
    match e with
    | Event.bodyWritten b => some b
    | _ => none

/-- The failure envelope literal of httputil.go: ok false plus a message. -/
def errorEnvelope (message : String) : JsonVal :=
  JsonVal.jobj2 "ok" (JsonLeaf.jbool false) "message" (JsonLeaf.jstr message)

/-- The type switch inside ErrorWithStatus of httputil.go. Go tries the arms
in source order: case error, case string, case httperror, default. Because
httperror itself implements error, every httperror value is captured by the
first arm and the case httperror arm is unreachable. The default arm yields
an error with the message unknown error occured (spelling as in the source). -/
def errorWithStatusToErr (err : GoValue) : GoError :=
  match err with
  | GoValue.verr e => e
  | GoValue.vstr s => GoError.basic s
  | GoValue.vnil => GoError.basic "unknown error occured"
  | GoValue.vother _ => GoError.basic "unknown error occured"

/-- ErrorWithStatus of httputil.go: logs, normalizes the argument with its own
type switch, adds the JSON content type header, writes the status and encodes
the failure envelope carrying the normalized message. -/
def ErrorWithStatus (statusCode : Int) (err : GoValue) : List Event :=
  [Event.logged (LogEntry.slogFailed statusCode err),
   Event.headerAdded "Content-Type" "application/json",
   Event.statusWritten statusCode,
   Event.bodyWritten (errorEnvelope (errorWithStatusToErr err).errorMsg)]

/-- Error of httputil.go: ErrorWithStatus at http.StatusInternalServerError. -/
def Error (err : GoValue) : List Event :=
  ErrorWithStatus 500 err

/-- JsonWithStatus of httputil.go: sets the JSON content type, sets the
nosniff header, writes the status and encodes the caller payload verbatim. -/
def JsonWithStatus (statusCode : Int) (data : JsonVal) : List Event :=
  [Event.headerSet "Content-Type" "application/json",
   Event.headerSet "X-Content-Type-Options" "nosniff",
   Event.statusWritten statusCode,
   Event.bodyWritten data]

/-- Json of httputil.go: JsonWithStatus at http.StatusOK. -/
def Json (data : JsonVal) : List Event :=
  JsonWithStatus 200 data

/-- MessageWithStatus of httputil.go: the success envelope with the given
message, sent through JsonWithStatus at the given status. -/
def MessageWithStatus (statusCode : Int) (message : String) : List Event :=
  JsonWithStatus statusCode
    (JsonVal.jobj2 "ok" (JsonLeaf.jbool true) "message" (JsonLeaf.jstr message))

/-- Message of httputil.go: the same envelope literal sent through
JsonWithStatus at http.StatusOK (the source inlines the literal rather than
calling MessageWithStatus). -/
def Message (message : String) : List Event :=
  JsonWithStatus 200
    (JsonVal.jobj2 "ok" (JsonLeaf.jbool true) "message" (JsonLeaf.jstr message))

/-- OK of httputil.go: the one field ok envelope through JsonWithStatus at
http.StatusOK. -/
def OK : List Event :=
  JsonWithStatus 200 (JsonVal.jobj1 "ok" (JsonLeaf.jbool true))

/-- InternalErrorWithStatus of httputil.go: logs the error at full detail (the
log line format depends on whether the value exposes a Cause method, which
only changes the log sink content, so the entry carries the whole error),
adds the JSON content type header, writes the status and encodes the fixed
generic envelope. The error text is never placed in the body. -/
def InternalErrorWithStatus (status : Int) (err : GoError) : List Event :=
  [Event.logged (LogEntry.slogInternal err),
   Event.headerAdded "Content-Type" "application/json",
   Event.statusWritten status,
   Event.bodyWritten (errorEnvelope "internal server error")]

/-- InternalError of httputil.go: InternalErrorWithStatus at status 500. -/
def InternalError (err : GoError) : List Event :=
  InternalErrorWithStatus 500 err

/-- toErr of the assert file: a string becomes errors.New of it, an error is
used as is, and anything else (nil included) becomes the fixed fallback error
with message missing error details. Total by construction: it never panics. -/
def toErr (err : GoValue) : GoError :=
  match err with
  | GoValue.vstr s => GoError.basic s
  | GoValue.verr e => e
  | GoValue.vnil => GoError.basic "missing error details"
  | GoValue.vother _ => GoError.basic "missing error details"

/-- The result of calling an assertion: either control returns to the caller
with the listed side effects, or the call panics carrying a value, again with
the listed side effects having happened first. -/
inductive AssertOutcome where
  | returned (events : List Event)
  | panicked (events : List Event) (carried : GoValue)
deriving DecidableEq, Repr

/-- AssertWithStatus of the assert file: on a false condition it logs the raw
argument via log.Printf and panics with the struct httperror holding the
given status and the toErr normalization of the argument; on a true condition
it does nothing at all. -/
def AssertWithStatus (condition : Bool) (status : Int) (err : GoValue) : AssertOutcome :=
  if !condition then
    AssertOutcome.panicked
      [Event.logged (LogEntry.printfAssertion status err)]
      (GoValue.verr (GoError.httpErr status (toErr err)))
  else
    AssertOutcome.returned []

/-- Assert of the assert file: AssertWithStatus at status 500. -/
def Assert (condition : Bool) (err : GoValue) : AssertOutcome :=
  AssertWithStatus condition 500 err

/-- AssertErrorIsNilWithStatus of the assert file: panics exactly when the
interface argument is not nil, logging first and carrying the httperror with
the given status and the toErr normalization of the argument. -/
def AssertErrorIsNilWithStatus (status : Int) (err : GoValue) : AssertOutcome :=
  if err ≠ GoValue.vnil then
    AssertOutcome.panicked
      [Event.logged (LogEntry.printfAssertion status err)]
      (GoValue.verr (GoError.httpErr status (toErr err)))
  else
    AssertOutcome.returned []

/-- AssertErrorIsNil of the assert file: AssertErrorIsNilWithStatus at 500.
Its Go parameter has type error, and a nil error converts to a nil interface
value, so the argument is modelled as an optional error. -/
def AssertErrorIsNil (err : Option GoError) : AssertOutcome :=
  AssertErrorIsNilWithStatus 500
    (match err with
     | none => GoValue.vnil
     | some e => GoValue.verr e)

/-- One wrapped handler invocation as the middleware observes it: the handler
either completes normally or panics with a carried value, in both cases
having already appended its own events to the shared sink. -/
inductive HandlerResult where
  | completes (events : List Event)
  | panics (events : List Event) (v : GoValue)
deriving DecidableEq, Repr

/-- The terminal state of one middleware invocation: the final event trace,
whether and with which value the panic was re-raised, and the number of times
the cancel function of the context.WithCancel scope was invoked. -/
inductive MWOutcome where
  | completed (events : List Event) (cancelCount : Nat)
  | rethrown (events : List Event) (v : GoValue) (cancelCount : Nat)
deriving DecidableEq, Repr

/-- MiddlewareHTTPAssersionRecoverer of the assert file. It creates a cancel
scope, defers a recover block and runs the inner handler. When the handler
returns normally, recover yields nil and the deferred block does nothing: in
particular cancel is never invoked on that path. When the handler panics with
a value implementing HttpError, the status decides between the internal error
writer (status at least 500) and the client error writer (below 500), after
which cancel is invoked once. Any other panic value is logged through
slog.Error with message text update and re-raised unmodified, again without
invoking cancel. -/
def MiddlewareHTTPAssersionRecoverer : HandlerResult → MWOutcome
  | HandlerResult.completes evs => MWOutcome.completed evs 0
  | HandlerResult.panics evs v =>
    match v.asHttpError? with
    | some (s, herr) =>
      if 500 ≤ s then
        MWOutcome.completed (evs ++ InternalErrorWithStatus s herr) 1
      else
        MWOutcome.completed (evs ++ ErrorWithStatus s (GoValue.verr herr)) 1
    | none =>
      MWOutcome.rethrown (evs ++ [Event.logged (LogEntry.slogUpdate v)]) v 0

/-- The final event trace of a middleware outcome. -/
def mwEvents : MWOutcome → List Event
  | MWOutcome.completed evs _ => evs
  | MWOutcome.rethrown evs _ _ => evs

/-- C7: toErr is total (a Lean function on all of GoValue, so it returns a non
nil error on every input without itself panicking) and behaves as claimed: a
string yields an error with that message, an error yields itself, and nil or
any other input yields the fixed fallback error with message missing error
details; moreover feeding its own result back in returns the same error. -/
theorem claim_C7 :
    (∀ s, toErr (GoValue.vstr s) = GoError.basic s)
  ∧ (∀ e, toErr (GoValue.verr e) = e)
  ∧ toErr GoValue.vnil = GoError.basic "missing error details"
  ∧ (∀ t, toErr (GoValue.vother t) = GoError.basic "missing error details")
  ∧ (∀ v, toErr (GoValue.verr (toErr v)) = toErr v) := by
  refine ⟨fun s => rfl, fun e => rfl, rfl, fun t => rfl, fun v => ?_⟩
  cases v <;> rfl

/-- C9: every bare convenience writer equals its WithStatus counterpart at the
documented default status, as an equality of the event traces appended to any
sink: Error at 500, InternalError at 500, Json at 200, Message at 200, and OK
equals JsonWithStatus at 200 with the ok true one field object. -/
theorem claim_C9 :
    (∀ e, Error e = ErrorWithStatus 500 e)
  ∧ (∀ e, InternalError e = InternalErrorWithStatus 500 e)
  ∧ (∀ p, Json p = JsonWithStatus 200 p)
  ∧ (∀ m, Message m = MessageWithStatus 200 m)
  ∧ OK = JsonWithStatus 200 (JsonVal.jobj1 "ok" (JsonLeaf.jbool true)) :=
  ⟨fun _ => rfl, fun _ => rfl, fun _ => rfl, fun _ => rfl, rfl⟩

/-- C3 counterexample: ErrorWithStatus does not normalize identically to toErr
and its fallback message is not missing error details. At the concrete input
of dynamic type int with value 42 (neither a string nor an error), the switch
of ErrorWithStatus yields the message unknown error occured while toErr
yields missing error details, so the two normalizations differ and the body
carries the other fallback text. -/
theorem claim_C3_counterexample :
    errorWithStatusToErr (GoValue.vother "42") ≠ toErr (GoValue.vother "42")
  ∧ bodyWrites (ErrorWithStatus 400 (GoValue.vother "42"))
      = [errorEnvelope "unknown error occured"]
  ∧ errorEnvelope "unknown error occured" ≠ errorEnvelope "missing error details" := by
  refine ⟨by decide, rfl, by decide⟩

/-- C3 amended: ErrorWithStatus agrees with toErr on string inputs and on
error inputs, where the error, an HttpStatusError included, is used as is
because the case error arm precedes the unreachable case httperror arm; but
on nil or any other input ErrorWithStatus falls back to the message unknown
error occured while toErr falls back to missing error details. The written
body message is the message of the error produced by the ErrorWithStatus
switch. -/
theorem claim_C3_amended :
    (∀ s, errorWithStatusToErr (GoValue.vstr s) = toErr (GoValue.vstr s))
  ∧ (∀ e, errorWithStatusToErr (GoValue.verr e) = e ∧ toErr (GoValue.verr e) = e)
  ∧ (∀ t, errorWithStatusToErr (GoValue.vother t) = GoError.basic "unknown error occured"
       ∧ toErr (GoValue.vother t) = GoError.basic "missing error details")
  ∧ errorWithStatusToErr GoValue.vnil = GoError.basic "unknown error occured"
  ∧ toErr GoValue.vnil = GoError.basic "missing error details"
  ∧ (∀ st v, bodyWrites (ErrorWithStatus st v)
       = [errorEnvelope (errorWithStatusToErr v).errorMsg]) :=
  ⟨fun _ => rfl, fun _ => ⟨rfl, rfl⟩, fun _ => ⟨rfl, rfl⟩, rfl, rfl, fun _ _ => rfl⟩

/-- C5: each assertion either returns having done nothing at all (condition
true, or nil error) or panics carrying an httperror with exactly the caller
chosen status (500 for the bare forms) whose stored cause is the toErr
normalization of the input, equal to the input itself for AssertErrorIsNil;
the only side effect before the panic is the single log line. -/
theorem claim_C5 :
    (∀ v, Assert true v = AssertOutcome.returned [])
  ∧ (∀ s v, AssertWithStatus true s v = AssertOutcome.returned [])
  ∧ (∀ s v, AssertWithStatus false s v
      = AssertOutcome.panicked [Event.logged (LogEntry.printfAssertion s v)]
          (GoValue.verr (GoError.httpErr s (toErr v))))
  ∧ (∀ v, Assert false v = AssertWithStatus false 500 v)
  ∧ (∀ s v, GoError.httpCause? (GoError.httpErr s (toErr v)) = some (toErr v))
  ∧ (∀ s v, v ≠ GoValue.vnil → AssertErrorIsNilWithStatus s v
      = AssertOutcome.panicked [Event.logged (LogEntry.printfAssertion s v)]
          (GoValue.verr (GoError.httpErr s (toErr v))))
  ∧ (∀ s, AssertErrorIsNilWithStatus s GoValue.vnil = AssertOutcome.returned [])
  ∧ (∀ e, AssertErrorIsNil (some e)
      = AssertOutcome.panicked [Event.logged (LogEntry.printfAssertion 500 (GoValue.verr e))]
          (GoValue.verr (GoError.httpErr 500 e)))
  ∧ AssertErrorIsNil none = AssertOutcome.returned [] := by
  refine ⟨fun v => rfl, fun s v => rfl, fun s v => rfl, fun v => rfl, fun s v => rfl,
    fun s v h => ?_, fun s => ?_, fun e => rfl, rfl⟩
  · simp [AssertErrorIsNilWithStatus, h]
  · simp [AssertErrorIsNilWithStatus]

/-- Witness for C5: AssertErrorIsNilWithStatus at status 404 on the non nil
string bad input panics carrying the httperror with status 404 and the
normalized cause. -/
theorem claim_C5_witness :
    AssertErrorIsNilWithStatus 404 (GoValue.vstr "bad input")
      = AssertOutcome.panicked
          [Event.logged (LogEntry.printfAssertion 404 (GoValue.vstr "bad input"))]
          (GoValue.verr (GoError.httpErr 404 (GoError.basic "bad input"))) :=
  claim_C5.2.2.2.2.2.1 404 (GoValue.vstr "bad input") (by decide)

/-- C1: when the wrapped handler panics with a typed httperror of status s and
underlying error e, the boundary completes the request appending exactly one
response: one status write equal to s, and one body, the failure envelope
whose message is the error message of e when s is below 500 and the generic
internal server error text when s is at least 500. -/
theorem claim_C1 (evs : List Event) (s : Int) (e : GoError) :
    ∃ E,
      MiddlewareHTTPAssersionRecoverer
          (HandlerResult.panics evs (GoValue.verr (GoError.httpErr s e)))
        = MWOutcome.completed (evs ++ E) 1
      ∧ statusWrites E = [s]
      ∧ bodyWrites E
          = [errorEnvelope (if 500 ≤ s then "internal server error" else e.errorMsg)] := by
  by_cases h : (500 : Int) ≤ s
  · refine ⟨InternalErrorWithStatus s (GoError.httpErr s e), ?_, rfl, ?_⟩
    · simp [MiddlewareHTTPAssersionRecoverer, GoValue.asHttpError?, h]
    · simp [bodyWrites, InternalErrorWithStatus, h]
  · refine ⟨ErrorWithStatus s (GoValue.verr (GoError.httpErr s e)), ?_, rfl, ?_⟩
    · simp [MiddlewareHTTPAssersionRecoverer, GoValue.asHttpError?, h]
    · simp [bodyWrites, ErrorWithStatus, errorWithStatusToErr, GoError.errorMsg, h]

/-- C2, recorded as a code bug: the middleware invokes the cancel function of
its context.WithCancel scope only on the classified failure path. Evaluated at
a handler that completes normally the cancel count is 0, not 1; likewise at a
handler that panics with an unclassified value; only a classified panic gives
count 1. The spec demands exactly one release on every exit path, and the
sibling variant of the middleware in the repository defers cancel so that all
paths release it, so the scope leak on the normal and re-raise paths of this
variant contradicts the documented intent. -/
theorem claim_C2_codebug :
    MiddlewareHTTPAssersionRecoverer (HandlerResult.completes [])
      = MWOutcome.completed [] 0
  ∧ MiddlewareHTTPAssersionRecoverer (HandlerResult.panics [] (GoValue.vstr "boom"))
      = MWOutcome.rethrown [Event.logged (LogEntry.slogUpdate (GoValue.vstr "boom"))]
          (GoValue.vstr "boom") 0
  ∧ MiddlewareHTTPAssersionRecoverer
        (HandlerResult.panics [] (GoValue.verr (GoError.httpErr 404 (GoError.basic "x"))))
      = MWOutcome.completed
          (ErrorWithStatus 404 (GoValue.verr (GoError.httpErr 404 (GoError.basic "x")))) 1 := by
  refine ⟨rfl, rfl, by decide⟩

/-- C4 counterexample: a panic value of a third party type implementing the
HttpError interface with status 418 and message teapot was not produced by
this system, yet the boundary classifies it, writes a response with status
418, and does not re-raise. -/
theorem claim_C4_counterexample :
    MiddlewareHTTPAssersionRecoverer
        (HandlerResult.panics [] (GoValue.verr (GoError.foreign 418 "teapot")))
      = MWOutcome.completed
          (ErrorWithStatus 418 (GoValue.verr (GoError.foreign 418 "teapot"))) 1
  ∧ statusWrites (mwEvents (MiddlewareHTTPAssersionRecoverer
        (HandlerResult.panics [] (GoValue.verr (GoError.foreign 418 "teapot"))))) = [418] := by
  refine ⟨by decide, by decide⟩

/-- C4 amended: for every caught panic whose carried value does not implement
the HttpError interface, the boundary writes no response (no status write and
no body write beyond those of the handler itself), logs the value at error
level, and re-raises the original value unmodified without invoking cancel. -/
theorem claim_C4_amended (evs : List Event) (v : GoValue)
    (h : v.asHttpError? = none) :
    MiddlewareHTTPAssersionRecoverer (HandlerResult.panics evs v)
      = MWOutcome.rethrown (evs ++ [Event.logged (LogEntry.slogUpdate v)]) v 0
  ∧ statusWrites (mwEvents (MiddlewareHTTPAssersionRecoverer (HandlerResult.panics evs v)))
      = statusWrites evs
  ∧ bodyWrites (mwEvents (MiddlewareHTTPAssersionRecoverer (HandlerResult.panics evs v)))
      = bodyWrites evs := by
  refine ⟨?_, ?_, ?_⟩ <;>
    simp [MiddlewareHTTPAssersionRecoverer, h, mwEvents, statusWrites, bodyWrites]

/-- Witness for C4: a panic carrying the plain string boom is re-raised
unmodified after a single log event, with no response writes. -/
theorem claim_C4_witness :
    MiddlewareHTTPAssersionRecoverer (HandlerResult.panics [] (GoValue.vstr "boom"))
      = MWOutcome.rethrown [Event.logged (LogEntry.slogUpdate (GoValue.vstr "boom"))]
          (GoValue.vstr "boom") 0 :=
  (claim_C4_amended [] (GoValue.vstr "boom") rfl).1

/-- C6: for status at least 500 the response body appended by the boundary is
the fixed generic envelope, so two runs differing only in the underlying
error produce identical body writes; and the message text of the error occurs
among the strings of that body only if it coincides with one of the three
fixed literals ok, message, internal server error. -/
theorem claim_C6 (evs : List Event) (s : Int) (e1 e2 : GoError)
    (hs : (500 : Int) ≤ s) :
    mwEvents (MiddlewareHTTPAssersionRecoverer
        (HandlerResult.panics evs (GoValue.verr (GoError.httpErr s e1))))
      = evs ++ InternalErrorWithStatus s (GoError.httpErr s e1)
  ∧ bodyWrites (mwEvents (MiddlewareHTTPAssersionRecoverer
        (HandlerResult.panics evs (GoValue.verr (GoError.httpErr s e1)))))
      = bodyWrites (mwEvents (MiddlewareHTTPAssersionRecoverer
        (HandlerResult.panics evs (GoValue.verr (GoError.httpErr s e2)))))
  ∧ bodyWrites (InternalErrorWithStatus s (GoError.httpErr s e1))
      = [errorEnvelope "internal server error"]
  ∧ (e1.errorMsg ∉ JsonVal.strings (errorEnvelope "internal server error")
      ∨ e1.errorMsg ∈ ["ok", "message", "internal server error"]) := by
  refine ⟨?_, ?_, rfl, ?_⟩
  · simp [MiddlewareHTTPAssersionRecoverer, GoValue.asHttpError?, hs, mwEvents]
  · simp [MiddlewareHTTPAssersionRecoverer, GoValue.asHttpError?, hs, mwEvents,
      bodyWrites, InternalErrorWithStatus]
  · by_cases hm : e1.errorMsg ∈ ["ok", "message", "internal server error"]
    · exact Or.inr hm
    · refine Or.inl ?_
      simpa [JsonVal.strings, errorEnvelope, JsonLeaf.strings] using hm

/-- Witness for C6: at status 500 with an error carrying a secret detail and a
second run carrying a different text, both runs append the identical generic
body and the trace equals the internal error writer trace. -/
theorem claim_C6_witness :
    mwEvents (MiddlewareHTTPAssersionRecoverer
        (HandlerResult.panics [] (GoValue.verr (GoError.httpErr 500 (GoError.basic "secret detail")))))
      = [] ++ InternalErrorWithStatus 500 (GoError.httpErr 500 (GoError.basic "secret detail"))
  ∧ bodyWrites (mwEvents (MiddlewareHTTPAssersionRecoverer
        (HandlerResult.panics [] (GoValue.verr (GoError.httpErr 500 (GoError.basic "secret detail"))))))
      = bodyWrites (mwEvents (MiddlewareHTTPAssersionRecoverer
        (HandlerResult.panics [] (GoValue.verr (GoError.httpErr 500 (GoError.basic "other text"))))))
  ∧ bodyWrites (InternalErrorWithStatus 500 (GoError.httpErr 500 (GoError.basic "secret detail")))
      = [errorEnvelope "internal server error"]
  ∧ ((GoError.basic "secret detail").errorMsg
        ∉ JsonVal.strings (errorEnvelope "internal server error")
      ∨ (GoError.basic "secret detail").errorMsg ∈ ["ok", "message", "internal server error"]) :=
  claim_C6 [] 500 (GoError.basic "secret detail") (GoError.basic "other text") (by decide)

/-- C8 counterexample: NewError stores its err argument without normalization,
so constructing with a nil error yields an HttpStatusError whose Cause method
returns nil, refuting that the cause is never null once constructed. -/
theorem claim_C8_counterexample :
    Httperror.causeOf (NewError 404 none) = none
  ∧ Httperror.statusOf (NewError 404 none) = 404 := by
  refine ⟨rfl, rfl⟩

/-- C8 amended: an HttpStatusError is immutable in the sense that Status and
Cause always return exactly the construction arguments, and its cause is non
null whenever a non null error was supplied to NewError; the Assertion API
always constructs the cause through toErr, which never yields null, so every
assertion built value has a non null cause. NewError called with a nil error,
however, stores a null cause. -/
theorem claim_C8_amended :
    (∀ s oe, Httperror.statusOf (NewError s oe) = s ∧ Httperror.causeOf (NewError s oe) = oe)
  ∧ (∀ s e, Httperror.causeOf (NewError s (some e)) ≠ none)
  ∧ (∀ s v, AssertWithStatus false s v
      = AssertOutcome.panicked [Event.logged (LogEntry.printfAssertion s v)]
          (GoValue.verr (GoError.httpErr s (toErr v))))
  ∧ (∀ s v, GoError.httpCause? (GoError.httpErr s (toErr v)) = some (toErr v)
      ∧ GoError.httpCause? (GoError.httpErr s (toErr v)) ≠ none) := by
  refine ⟨fun s oe => ⟨rfl, rfl⟩, fun s e h => ?_, fun s v => rfl,
    fun s v => ⟨rfl, fun h => ?_⟩⟩
  · exact Option.noConfusion h
  · exact Option.noConfusion h

/-- Witness for C8: a NewError construction with a concrete non null error has
a non null cause equal to the supplied error. -/
theorem claim_C8_witness :
    Httperror.causeOf (NewError 404 (some (GoError.basic "user not found"))) ≠ none :=
  claim_C8_amended.2.1 404 (GoError.basic "user not found")

/-- C10: the classification test of the boundary is structural. A third party
value implementing the HttpError interface passes the type assertion even
though it was not created by this package; every value passing the assertion
is converted into a response (one status write at its status, a non empty
body) and never re-raised; and every value failing the assertion is logged
and re-raised unmodified with no response write. -/
theorem claim_C10 :
    (∀ s m, GoValue.asHttpError? (GoValue.verr (GoError.foreign s m))
        = some (s, GoError.foreign s m))
  ∧ (∀ evs v s herr, v.asHttpError? = some (s, herr) →
      ∃ E, MiddlewareHTTPAssersionRecoverer (HandlerResult.panics evs v)
          = MWOutcome.completed (evs ++ E) 1
        ∧ statusWrites E = [s] ∧ bodyWrites E ≠ [])
  ∧ (∀ evs v, v.asHttpError? = none →
      MiddlewareHTTPAssersionRecoverer (HandlerResult.panics evs v)
        = MWOutcome.rethrown (evs ++ [Event.logged (LogEntry.slogUpdate v)]) v 0) := by
  refine ⟨fun s m => rfl, fun evs v s herr hv => ?_, fun evs v hv => ?_⟩
  · by_cases h : (500 : Int) ≤ s
    · refine ⟨InternalErrorWithStatus s herr, ?_, rfl, by simp [bodyWrites, InternalErrorWithStatus]⟩
      simp [MiddlewareHTTPAssersionRecoverer, hv, h]
    · refine ⟨ErrorWithStatus s (GoValue.verr herr), ?_, rfl, by simp [bodyWrites, ErrorWithStatus]⟩
      simp [MiddlewareHTTPAssersionRecoverer, hv, h]
  · simp [MiddlewareHTTPAssersionRecoverer, hv]

/-- Witness for C10: the foreign teapot value is classified and answered with
status 418, while a panic carrying a non HttpError value of another dynamic
type is re-raised unmodified. -/
theorem claim_C10_witness :
    (∃ E, MiddlewareHTTPAssersionRecoverer
          (HandlerResult.panics [] (GoValue.verr (GoError.foreign 418 "I am a teapot")))
        = MWOutcome.completed ([] ++ E) 1
      ∧ statusWrites E = [418] ∧ bodyWrites E ≠ [])
  ∧ MiddlewareHTTPAssersionRecoverer (HandlerResult.panics [] (GoValue.vother "session token"))
      = MWOutcome.rethrown
          ([] ++ [Event.logged (LogEntry.slogUpdate (GoValue.vother "session token"))])
          (GoValue.vother "session token") 0 :=
  ⟨claim_C10.2.1 [] (GoValue.verr (GoError.foreign 418 "I am a teapot")) 418
      (GoError.foreign 418 "I am a teapot") rfl,
   claim_C10.2.2 [] (GoValue.vother "session token") rfl⟩

end GoHttputil
